import Mathlib

/-!
# Verification of the olam linear-algebra library

Shallow embedding over the real numbers of the vector / matrix / quaternion
operations of the olam TypeScript library (src/src/types and src/src/math.ts),
together with proofs and refutations of the specified properties.

JS `number` arithmetic is embedded as real arithmetic; `Math.sin`, `Math.cos`,
`Math.sqrt`, `Math.acos`, `Math.asin`, `Math.atan2` become the corresponding
real functions.  Fatal `assert` / `panic` calls (src/src/debug) abort the
operation, so a function guarded by one is embedded as `Option`-valued, with
`none` for the aborted case.
-/

namespace Olam

open Real

/-- Epsilon constant of src/src/math.ts (first snapshot): `epsilon = 1E-8`. -/
def epsilon : ℝ := 1e-8

/-- Squared epsilon of src/src/math.ts: `epsilon2 = epsilon * epsilon`. -/
def epsilon2 : ℝ := epsilon * epsilon

/-- Reciprocal `recip(v) = 1 / v` of src/src/math.ts. -/
noncomputable def recip (v : ℝ) : ℝ := 1 / v

/-- Reciprocal square root `rsqrt(v) = recip(sqrt(v))` of src/src/math.ts
(the `sqrt` export of math.ts evaluates to `Math.sqrt` or `pow(v, 0.5)`;
both embed as the real square root). -/
noncomputable def rsqrt (v : ℝ) : ℝ := recip (Real.sqrt v)

/-- Degrees to radians, `deg(d) = d * (PI / 180)` of src/src/math.ts. -/
noncomputable def deg (degrees : ℝ) : ℝ := degrees * (Real.pi / 180)

/-- JS `isFinite`: every value of the real-number embedding is finite (the JS
`Infinity`/`NaN` values produced by float division by zero have no counterpart
here; the division-by-zero guards appear as the companion `0 < _` tests). -/
def jsFinite (_ : ℝ) : Prop := True

instance : ∀ x, Decidable (jsFinite x) := fun _ => .isTrue trivial

/-- A 2-dimensional vector (interface `num2` / `vec2`). -/
structure Vec2 where
  x : ℝ
  y : ℝ

/-- A 3-dimensional vector (interface `num3` / `vec3`). -/
structure Vec3 where
  x : ℝ
  y : ℝ
  z : ℝ

/-- A 4-component value: both the 4-dimensional vector `vec4` and the
quaternion `quat` of the source are plain `{x,y,z,w}` aggregates
(interface `num4`). -/
structure Num4 where
  x : ℝ
  y : ℝ
  z : ℝ
  w : ℝ

/-- A 2x2 column major matrix (two `vec2` columns). -/
structure Mat2 where
  c0 : Vec2
  c1 : Vec2

/-- A 3x3 column major matrix (three `vec3` columns). -/
structure Mat3 where
  c0 : Vec3
  c1 : Vec3
  c2 : Vec3

/-! ## vec2 (src/src/types/vec2.ts, createImpl snapshot) -/

/-- vec2 componentwise addition. -/
def vec2.add (lhs rhs : Vec2) : Vec2 := ⟨lhs.x + rhs.x, lhs.y + rhs.y⟩

/-! ## vec3 (src/src/types/vec3.ts, createImpl snapshot, lines 209-653) -/

/-- vec3 `up()` constant: `(0, 1, 0)`. -/
def vec3.up : Vec3 := ⟨0, 1, 0⟩

/-- vec3 `right()` constant: `(1, 0, 0)`. -/
def vec3.right : Vec3 := ⟨1, 0, 0⟩

/-- vec3 `forward()` constant: `(0, 0, 1)`. -/
def vec3.forward : Vec3 := ⟨0, 0, 1⟩

/-- vec3 componentwise `mul`. -/
def vec3.mul (lhs rhs : Vec3) : Vec3 := ⟨lhs.x * rhs.x, lhs.y * rhs.y, lhs.z * rhs.z⟩

/-- vec3 `scale` by a scalar. -/
def vec3.scale (lhs : Vec3) (rhs : ℝ) : Vec3 := ⟨lhs.x * rhs, lhs.y * rhs, lhs.z * rhs⟩

/-- vec3 `add`. -/
def vec3.add (lhs rhs : Vec3) : Vec3 := ⟨lhs.x + rhs.x, lhs.y + rhs.y, lhs.z + rhs.z⟩

/-- vec3 `dot`. -/
def vec3.dot (lhs rhs : Vec3) : ℝ := lhs.x * rhs.x + lhs.y * rhs.y + lhs.z * rhs.z

/-- vec3 `len2` (squared length). -/
def vec3.len2 (v : Vec3) : ℝ := v.x * v.x + v.y * v.y + v.z * v.z

/-- vec3 `len = sqrt(len2)`. -/
noncomputable def vec3.len (v : Vec3) : ℝ := Real.sqrt (vec3.len2 v)

/-- vec3 `rlen = rsqrt(len2)`. -/
noncomputable def vec3.rlen (v : Vec3) : ℝ := rsqrt (vec3.len2 v)

/-- vec3 `cross`. -/
def vec3.cross (lhs rhs : Vec3) : Vec3 :=
  ⟨lhs.y * rhs.z - lhs.z * rhs.y, lhs.z * rhs.x - lhs.x * rhs.z, lhs.x * rhs.y - lhs.y * rhs.x⟩

/-- vec3 `normalize(v) = scale(v, rsqrt(dot(v, v)))`. -/
noncomputable def vec3.normalize (v : Vec3) : Vec3 := vec3.scale v (rsqrt (vec3.dot v v))

/-- vec3 `normalizeSafe` (vec3.ts lines 419-428): computes `rcp = rlen(v)` and
returns `normalize(v)` when `rcp > 0.0 && isFinite(rcp)`, else sets `(0,0,0)`. -/
noncomputable def vec3.normalizeSafe (v : Vec3) : Vec3 :=
  let rcp := vec3.rlen v
  if 0 < rcp ∧ jsFinite rcp then vec3.normalize v else ⟨0, 0, 0⟩

/-- vec3 `isNormalized(v)`: `|len2(v) - 1| <= epsilon`. -/
noncomputable def vec3.isNormalized (v : Vec3) : Prop := |vec3.len2 v - 1| ≤ epsilon

/-- vec3 `xy` swizzle (used by mat3.transformPoint2 / transformVec2). -/
def vec3.xy (v : Vec3) : Vec2 := ⟨v.x, v.y⟩

/-! ## vec4 (src/src/types/vec4.ts) -/

/-- vec4 `up()` constant, vec4.ts lines 25-28: `vec4.create(1, 0, 0, 0)`. -/
def vec4.up : Num4 := ⟨1, 0, 0, 0⟩

/-- vec4 `down()` constant, vec4.ts lines 29-32: `vec4.create(-1, 0, 0, 0)`. -/
def vec4.down : Num4 := ⟨-1, 0, 0, 0⟩

/-- vec4 `left()` constant, vec4.ts lines 33-36: `vec4.create(0, -1, 0, 0)`. -/
def vec4.left : Num4 := ⟨0, -1, 0, 0⟩

/-- vec4 `right()` constant, vec4.ts lines 37-40: `vec4.create(0, 1, 0, 0)`. -/
def vec4.right : Num4 := ⟨0, 1, 0, 0⟩

/-- vec4 `len2`. -/
def vec4.len2 (v : Num4) : ℝ := v.x * v.x + v.y * v.y + v.z * v.z + v.w * v.w

/-- vec4 `dot`. -/
def vec4.dot (lhs rhs : Num4) : ℝ :=
  lhs.x * rhs.x + lhs.y * rhs.y + lhs.z * rhs.z + lhs.w * rhs.w

/-- vec4 `isNormalized(v)`: `|len2(v) - 1| <= epsilon`. -/
noncomputable def vec4.isNormalized (v : Num4) : Prop := |vec4.len2 v - 1| ≤ epsilon

/-! ## quat (src/src/types/quat.ts) -/

/-- Euler rotation sequences (quat.ts lines 324-332). -/
inductive EulerRot where
  | ZYX
  | ZXY
  | YXZ
  | YZX
  | XYZ
  | XZY

/-- quat `identity()`: `(0, 0, 0, 1)` (quat.ts lines 28-31). -/
def quat.identity : Num4 := ⟨0, 0, 0, 1⟩

/-- quat `mul(lhs, rhs)`, the Hamilton product (quat.ts lines 264-276). -/
def quat.mul (lhs rhs : Num4) : Num4 :=
  ⟨lhs.w * rhs.x + lhs.x * rhs.w + lhs.y * rhs.z - lhs.z * rhs.y,
   lhs.w * rhs.y - lhs.x * rhs.z + lhs.y * rhs.w + lhs.z * rhs.x,
   lhs.w * rhs.z + lhs.x * rhs.y - lhs.y * rhs.x + lhs.z * rhs.w,
   lhs.w * rhs.w - lhs.x * rhs.x - lhs.y * rhs.y - lhs.z * rhs.z⟩

/-- quat `conj(q)`: negates the vector part (quat.ts lines 285-290). -/
def quat.conj (q : Num4) : Num4 := ⟨-q.x, -q.y, -q.z, q.w⟩

/-- quat `dot` delegates to vec4.dot (quat.ts line 310). -/
def quat.dot (lhs rhs : Num4) : ℝ := vec4.dot lhs rhs

/-- quat `len2` delegates to vec4.len2 (quat.ts line 294). -/
def quat.len2 (q : Num4) : ℝ := vec4.len2 q

/-- quat `isNormalized` delegates to vec4.isNormalized (quat.ts line 251). -/
noncomputable def quat.isNormalized (q : Num4) : Prop := vec4.isNormalized q

noncomputable instance (q : Num4) : Decidable (quat.isNormalized q) :=
  inferInstanceAs (Decidable (_ ≤ _))

/-- quat `fromAxisAngle(axis, radians)` (quat.ts lines 56-62):
`(axis * sin(radians/2), cos(radians/2))`. -/
noncomputable def quat.fromAxisAngle (axis : Vec3) (radians : ℝ) : Num4 :=
  ⟨axis.x * Real.sin (radians / 2), axis.y * Real.sin (radians / 2),
   axis.z * Real.sin (radians / 2), Real.cos (radians / 2)⟩

/-- quat `fromScaledAxis(v)` (quat.ts lines 63-72): when `len(v) === 0` the
explicit branch returns the identity quaternion, else
`fromAxisAngle(scale(v, 1/len), len)`. -/
noncomputable def quat.fromScaledAxis (v : Vec3) : Num4 :=
  let len := vec3.len v
  if len = 0 then quat.identity
  else quat.fromAxisAngle (vec3.scale v (1 / len)) len

/-- quat `fromRotationX(radians)` (quat.ts lines 73-79). -/
noncomputable def quat.fromRotationX (radians : ℝ) : Num4 :=
  ⟨Real.sin (radians / 2), 0, 0, Real.cos (radians / 2)⟩

/-- quat `fromRotationY(radians)` (quat.ts lines 80-86). -/
noncomputable def quat.fromRotationY (radians : ℝ) : Num4 :=
  ⟨0, Real.sin (radians / 2), 0, Real.cos (radians / 2)⟩

/-- quat `fromRotationZ(radians)` (quat.ts lines 87-93). -/
noncomputable def quat.fromRotationZ (radians : ℝ) : Num4 :=
  ⟨0, 0, Real.sin (radians / 2), Real.cos (radians / 2)⟩

/-- quat `fromEuler(rot, euler)` (quat.ts lines 94-116).  Every branch computes
`quat.mul(rotZ(_), rotY(_).mul(rotX(_)))`; only the argument components fed to
the three single-axis factors differ per order.  In particular the XZY branch
(line 113) reads `rot.y` for both the Z and the X factor and never reads
`rot.x`. -/
noncomputable def quat.fromEuler (rot : Vec3) (euler : EulerRot) : Num4 :=
  match euler with
  | .ZYX => quat.mul (quat.fromRotationZ rot.x)
      (quat.mul (quat.fromRotationY rot.y) (quat.fromRotationX rot.z))
  | .ZXY => quat.mul (quat.fromRotationZ rot.x)
      (quat.mul (quat.fromRotationY rot.z) (quat.fromRotationX rot.y))
  | .YXZ => quat.mul (quat.fromRotationZ rot.z)
      (quat.mul (quat.fromRotationY rot.x) (quat.fromRotationX rot.y))
  | .YZX => quat.mul (quat.fromRotationZ rot.y)
      (quat.mul (quat.fromRotationY rot.x) (quat.fromRotationX rot.z))
  | .XYZ => quat.mul (quat.fromRotationZ rot.z)
      (quat.mul (quat.fromRotationY rot.y) (quat.fromRotationX rot.x))
  | .XZY => quat.mul (quat.fromRotationZ rot.y)
      (quat.mul (quat.fromRotationY rot.z) (quat.fromRotationX rot.y))

/-- quat `toAxisAngle(q)` (quat.ts lines 187-200): `angle = 2*acos(w)` and
`s = max(1 - w*w, 0)`; when `s < epsilon2` the axis falls back to `(1,0,0)`,
else the axis is `(x,y,z) / sqrt(s)`. -/
noncomputable def quat.toAxisAngle (q : Num4) : Vec3 × ℝ :=
  let angle := 2 * Real.arccos q.w
  let s := max (1 - q.w * q.w) 0
  if s < epsilon2 then (⟨1, 0, 0⟩, angle)
  else (⟨q.x / Real.sqrt s, q.y / Real.sqrt s, q.z / Real.sqrt s⟩, angle)

/-- JS `Math.atan2(y, x)`: the angle of the point `(x, y)` in `(-pi, pi]`,
with `atan2(0, 0) = 0` (and the JS signed-zero distinctions collapsed, since
the real numbers have a single zero). -/
noncomputable def atan2 (y x : ℝ) : ℝ :=
  if 0 < x then Real.arctan (y / x)
  else if x < 0 then
    (if 0 ≤ y then Real.arctan (y / x) + Real.pi else Real.arctan (y / x) - Real.pi)
  else
    (if 0 < y then Real.pi / 2 else if y < 0 then -(Real.pi / 2) else 0)

/-- quat `toEuler(q, euler)` (quat.ts lines 208-245): the per-order closed-form
`atan2` / `asin` blocks, transcribed term for term. -/
noncomputable def quat.toEuler (q : Num4) (euler : EulerRot) : Vec3 :=
  match euler with
  | .ZXY =>
    ⟨atan2 (2 * (q.x * q.w - q.y * q.z)) (1 - 2 * (q.x * q.x + q.y * q.y)),
     Real.arcsin (2 * (q.x * q.y + q.z * q.w)),
     atan2 (2 * (q.x * q.z - q.y * q.w)) (1 - 2 * (q.y * q.y + q.z * q.z))⟩
  | .ZYX =>
    ⟨atan2 (2 * (q.x * q.w - q.y * q.z)) (1 - 2 * (q.x * q.x + q.y * q.y)),
     atan2 (2 * (q.x * q.y + q.z * q.w)) (1 - 2 * (q.x * q.x + q.z * q.z)),
     Real.arcsin (2 * (q.x * q.z - q.y * q.w))⟩
  | .YZX =>
    ⟨Real.arcsin (2 * (q.x * q.w + q.y * q.z)),
     atan2 (2 * (q.z * q.w - q.x * q.y)) (1 - 2 * (q.y * q.y + q.z * q.z)),
     atan2 (2 * (q.x * q.z - q.y * q.w)) (1 - 2 * (q.x * q.x + q.y * q.y))⟩
  | .XZY =>
    ⟨atan2 (2 * (q.x * q.w + q.y * q.z)) (1 - 2 * (q.x * q.x + q.y * q.y)),
     Real.arcsin (2 * (q.x * q.y - q.z * q.w)),
     atan2 (2 * (q.x * q.z + q.y * q.w)) (1 - 2 * (q.x * q.x + q.z * q.z))⟩
  | .YXZ =>
    ⟨atan2 (2 * (q.x * q.z + q.w * q.y)) (q.w * q.w - q.x * q.x - q.y * q.y + q.z * q.z),
     Real.arcsin (-2 * (q.y * q.z - q.w * q.x)),
     atan2 (2 * (q.x * q.y + q.w * q.z)) (q.w * q.w - q.x * q.x + q.y * q.y - q.z * q.z)⟩
  | .XYZ =>
    ⟨atan2 (2 * (q.x * q.w + q.y * q.z)) (1 - 2 * (q.x * q.x + q.y * q.y)),
     Real.arcsin (2 * (q.x * q.y - q.z * q.w)),
     atan2 (2 * (q.x * q.z + q.y * q.w)) (1 - 2 * (q.x * q.x + q.y * q.y))⟩

/-- quat `angle(lhs, rhs)` (quat.ts lines 311-315): asserts both operands are
normalized (fatal when not, embedded as `none`), then returns
`acos(|dot(lhs, rhs)|) * 2`. -/
noncomputable def quat.angle (lhs rhs : Num4) : Option ℝ :=
  if quat.isNormalized lhs ∧ quat.isNormalized rhs then
    some (Real.arccos |quat.dot lhs rhs| * 2)
  else none

/-! ## mat2 (src/src/types/mat2.ts) -/

/-- mat2 value constructor from four scalars in column major order
(`create(m00, m01, m10, m11)` builds columns `(m00,m01)` and `(m10,m11)`). -/
def mat2.new (m00 m01 m10 m11 : ℝ) : Mat2 := ⟨⟨m00, m01⟩, ⟨m10, m11⟩⟩

/-- mat2 `det(target) = c0.x*c1.y - c0.y*c1.x` (mat2.ts lines 161-164). -/
def mat2.det (target : Mat2) : ℝ := target.c0.x * target.c1.y - target.c0.y * target.c1.x

/-- mat2 `fromCols` (value of the matrix written into the out slot). -/
def mat2.fromCols (x y : Vec2) : Mat2 := ⟨⟨x.x, x.y⟩, ⟨y.x, y.y⟩⟩

/-- mat2 `vmul2(lhs, rhs)` (mat2.ts lines 111-116): matrix-vector product. -/
def mat2.vmul2 (lhs : Mat2) (rhs : Vec2) : Vec2 :=
  ⟨lhs.c0.x * rhs.x + lhs.c1.x * rhs.y, lhs.c0.y * rhs.x + lhs.c1.y * rhs.y⟩

/-- mat2 `identity()` (mat2.ts lines 16-19). -/
def mat2.identity : Mat2 := mat2.new 1 0 0 1

/-- mat2 `mul(lhs, rhs)` (mat2.ts lines 104-110): columns `vmul2(lhs, rhs.cj)`. -/
def mat2.mulM (lhs rhs : Mat2) : Mat2 :=
  mat2.fromCols (mat2.vmul2 lhs rhs.c0) (mat2.vmul2 lhs rhs.c1)

/-- mat2 `col(target, index)` (mat2.ts lines 128-135): `c0` for 0, `c1` for 1,
and a fatal index-out-of-range panic (embedded as `none`) otherwise. -/
def mat2.col (target : Mat2) (index : ℤ) : Option Vec2 :=
  if index = 0 then some target.c0
  else if index = 1 then some target.c1
  else none

/-- mat2 `row(target, index)` (mat2.ts lines 136-143). -/
def mat2.row (target : Mat2) (index : ℤ) : Option Vec2 :=
  if index = 0 then some ⟨target.c0.x, target.c1.x⟩
  else if index = 1 then some ⟨target.c0.y, target.c1.y⟩
  else none

/-- Value computed by mat2 `inv` after the determinant assertion passes
(mat2.ts lines 148-152): `inv = recip(det)` and columns
`(inv*c1.y, -inv*c0.y)` and `(-inv*c1.x, inv*c0.x)`. -/
noncomputable def mat2.invVal (target : Mat2) : Mat2 :=
  let inv := recip (mat2.det target)
  mat2.fromCols ⟨inv * target.c1.y, -inv * target.c0.y⟩
    ⟨-inv * target.c1.x, inv * target.c0.x⟩

/-- mat2 `inv(target)` (mat2.ts lines 144-153): `assert(det !== 0)` is fatal
(embedded as `none`) exactly when `det = 0`, else the inverse value. -/
noncomputable def mat2.inv (target : Mat2) : Option Mat2 :=
  if mat2.det target = 0 then none else some (mat2.invVal target)

/-! ## mat3 (src/src/types/mat3.ts) -/

/-- mat3 value constructor from nine scalars in column major order. -/
def mat3.new (m00 m01 m02 m10 m11 m12 m20 m21 m22 : ℝ) : Mat3 :=
  ⟨⟨m00, m01, m02⟩, ⟨m10, m11, m12⟩, ⟨m20, m21, m22⟩⟩

/-- mat3 `identity()` (mat3.ts lines 46-48). -/
def mat3.identity : Mat3 := mat3.new 1 0 0 0 1 0 0 0 1

/-- mat3 `fromCols` (value written into the out slot, mat3.ts lines 83-88). -/
def mat3.fromCols (x y z : Vec3) : Mat3 :=
  ⟨⟨x.x, x.y, x.z⟩, ⟨y.x, y.y, y.z⟩, ⟨z.x, z.y, z.z⟩⟩

/-- mat3 `det(self) = dot(c2, cross(c0, c1))` (mat3.ts lines 306-310). -/
def mat3.det (self : Mat3) : ℝ := vec3.dot self.c2 (vec3.cross self.c0 self.c1)

/-- mat3 `col(self, index)` (mat3.ts lines 266-274).  Note that the source
`case 2` branch (line 271) returns `self.c1`, not `self.c2`. -/
def mat3.col (self : Mat3) (index : ℤ) : Option Vec3 :=
  if index = 0 then some self.c0
  else if index = 1 then some self.c1
  else if index = 2 then some self.c1
  else none

/-- mat3 `row(self, index)` (mat3.ts lines 275-283). -/
def mat3.row (self : Mat3) (index : ℤ) : Option Vec3 :=
  if index = 0 then some ⟨self.c0.x, self.c1.x, self.c2.x⟩
  else if index = 1 then some ⟨self.c0.y, self.c1.y, self.c2.y⟩
  else if index = 2 then some ⟨self.c0.z, self.c1.z, self.c2.z⟩
  else none

/-- mat3 `transpose` (value written into its out slot, mat3.ts lines 298-305). -/
def mat3.transposeVal (self : Mat3) : Mat3 :=
  mat3.fromCols ⟨self.c0.x, self.c1.x, self.c2.x⟩
    ⟨self.c0.y, self.c1.y, self.c2.y⟩ ⟨self.c0.z, self.c1.z, self.c2.z⟩

/-- Value written by mat3 `inv` into its `out` argument before the final
transpose (mat3.ts lines 286-296): the three column cross products scaled
componentwise by `vec3(recip(det))`. -/
noncomputable def mat3.adjCols (self : Mat3) : Mat3 :=
  let tmp0 := vec3.cross self.c1 self.c2
  let tmp1 := vec3.cross self.c2 self.c0
  let tmp2 := vec3.cross self.c0 self.c1
  let invDet : Vec3 := ⟨recip (mat3.det self), recip (mat3.det self), recip (mat3.det self)⟩
  mat3.fromCols (vec3.mul tmp0 invDet) (vec3.mul tmp1 invDet) (vec3.mul tmp2 invDet)

/-- Value returned by mat3 `inv` after the determinant assertion passes
(mat3.ts line 292): `transpose(fromCols(...))`. -/
noncomputable def mat3.invVal (self : Mat3) : Mat3 := mat3.transposeVal (mat3.adjCols self)

/-- mat3 `inv(self)` (mat3.ts lines 284-297): `assert(det !== 0)` is fatal
(embedded as `none`) exactly when `det = 0`, else the inverse value. -/
noncomputable def mat3.inv (self : Mat3) : Option Mat3 :=
  if mat3.det self = 0 then none else some (mat3.invVal self)

/-- mat3 `vmul3(lhs, rhs)` (mat3.ts lines 247-253):
`scale(c0, rhs.x)` then add `scale(c1, rhs.y)` then add `scale(c2, rhs.z)`. -/
def mat3.vmul3 (lhs : Mat3) (rhs : Vec3) : Vec3 :=
  vec3.add (vec3.add (vec3.scale lhs.c0 rhs.x) (vec3.scale lhs.c1 rhs.y))
    (vec3.scale lhs.c2 rhs.z)

/-- mat3 `mul(lhs, rhs)` (mat3.ts lines 239-246): columns `vmul3(lhs, rhs.cj)`. -/
def mat3.mul (lhs rhs : Mat3) : Mat3 :=
  mat3.fromCols (mat3.vmul3 lhs rhs.c0) (mat3.vmul3 lhs rhs.c1) (mat3.vmul3 lhs rhs.c2)

/-- mat3 `transformVec2(self, rhs)` (mat3.ts lines 315-322): applies the
upper-left 2x2 block, extracted with `vec3.xy`, to `rhs`. -/
def mat3.transformVec2 (self : Mat3) (rhs : Vec2) : Vec2 :=
  mat2.vmul2 (mat2.fromCols (vec3.xy self.c0) (vec3.xy self.c1)) rhs

/-- mat3 `transformPoint2(self, rhs)` (mat3.ts lines 311-314):
`transformVec2(self, rhs) + xy(c2)`. -/
def mat3.transformPoint2 (self : Mat3) (rhs : Vec2) : Vec2 :=
  vec2.add (mat3.transformVec2 self rhs) (vec3.xy self.c2)

/-! ## Reference semantics for the out-parameter convention

The library mutates caller-supplied `out` objects in place and returns object
references.  To settle claims about which object an operation returns, the
relevant operations are also embedded against an explicit object heap: every
JS object involved gets a numeric reference, a default parameter
`out = create()` / `out = vec2()` becomes an allocation of a fresh reference,
and `set`-style writes become store updates.  Module-scope scratch objects
(`tmp0..tmp3`, `tmpm20` of mat3.ts) never escape the operations modelled here,
so writes to them are elided. -/

/-- An object heap: a bump allocator plus stores for the `mat3` and `vec2`
objects the modelled operations touch. -/
structure Heap where
  next : ℕ
  m3 : ℕ → Mat3
  v2 : ℕ → Vec2

/-- Allocate a fresh mat3 object holding value `v`. -/
def Heap.allocM3 (h : Heap) (v : Mat3) : ℕ × Heap :=
  (h.next, ⟨h.next + 1, Function.update h.m3 h.next v, h.v2⟩)

/-- Write value `v` into the mat3 object `r`. -/
def Heap.writeM3 (h : Heap) (r : ℕ) (v : Mat3) : Heap :=
  ⟨h.next, Function.update h.m3 r v, h.v2⟩

/-- Allocate a fresh vec2 object holding value `v`. -/
def Heap.allocV2 (h : Heap) (v : Vec2) : ℕ × Heap :=
  (h.next, ⟨h.next + 1, h.m3, Function.update h.v2 h.next v⟩)

/-- Write value `v` into the vec2 object `r`. -/
def Heap.writeV2 (h : Heap) (r : ℕ) (v : Vec2) : Heap :=
  ⟨h.next, h.m3, Function.update h.v2 r v⟩

/-- mat3 `fromCols(x, y, z, out)` with an explicit `out` reference: writes the
columns into `out` via `this.set(out, ...)` and returns `out` (mat3.ts
lines 83-88, 50-70). -/
def mat3.fromColsRef (x y z : Vec3) (out : ℕ) (h : Heap) : ℕ × Heap :=
  (out, h.writeM3 out (mat3.fromCols x y z))

/-- mat3 `transpose(self)` called WITHOUT an `out` argument (as on mat3.ts
line 292): the default parameter `out = create()` allocates a fresh all-zero
matrix, the column values of `self` are then written into it via `fromCols`
and the fresh reference is returned (mat3.ts lines 298-305). -/
def mat3.transposeRef (self : ℕ) (h : Heap) : ℕ × Heap :=
  let m := h.m3 self
  let (out, h1) := h.allocM3 (mat3.new 0 0 0 0 0 0 0 0 0)
  mat3.fromColsRef ⟨m.c0.x, m.c1.x, m.c2.x⟩ ⟨m.c0.y, m.c1.y, m.c2.y⟩
    ⟨m.c0.z, m.c1.z, m.c2.z⟩ out h1

/-- mat3 `inv(self, out)` with an explicit caller-supplied `out` reference
(mat3.ts lines 284-297): after the determinant assertion, the body is
`return mat3.transpose(this.fromCols(tmp0*invDet, tmp1*invDet, tmp2*invDet, out))`;
`fromCols` writes into `out` and returns it, and the outer `transpose` call
passes no `out` of its own. -/
noncomputable def mat3.invRef (self out : ℕ) (h : Heap) : Option (ℕ × Heap) :=
  let m := h.m3 self
  if mat3.det m = 0 then none
  else
    let a := mat3.adjCols m
    let (r1, h1) := mat3.fromColsRef a.c0 a.c1 a.c2 out h
    some (mat3.transposeRef r1 h1)

/-- mat3 `transformVec2(self, rhs)` called WITHOUT an `out` argument: the
default parameter `out = vec2()` allocates a fresh vector, `mat2.vmul2`
writes the product into it and returns it (mat3.ts lines 315-322). -/
def mat3.transformVec2Ref (self : ℕ) (rhs : Vec2) (h : Heap) : ℕ × Heap :=
  let m := h.m3 self
  let (out, h1) := h.allocV2 ⟨0, 0⟩
  (out, h1.writeV2 out (mat3.transformVec2 m rhs))

/-- mat3 `transformPoint2(self, rhs, out)` (mat3.ts lines 311-314): the body
`return vec2.add(this.transformVec2(self, rhs), vec3.xy(self.c2))` calls
`transformVec2` without `out` (fresh allocation), `vec3.xy` without `out`
(fresh allocation) and `vec2.add` without `out` (fresh allocation, returned);
the caller-supplied `out` parameter is never used. -/
def mat3.transformPoint2Ref (self : ℕ) (rhs : Vec2) (out : ℕ) (h : Heap) : ℕ × Heap :=
  let m := h.m3 self
  let (t, h1) := mat3.transformVec2Ref self rhs h
  let (u, h2) := h1.allocV2 (vec3.xy m.c2)
  let (r, h3) := h2.allocV2 (vec2.add (h2.v2 t) (h2.v2 u))
  (r, h3)

/-! ## Matrix algebra lemmas -/

attribute [ext] Vec2 Vec3 Num4 Mat2 Mat3

theorem mat2.mulM_assoc (A B C : Mat2) :
    mat2.mulM (mat2.mulM A B) C = mat2.mulM A (mat2.mulM B C) := by
  ext <;> simp only [mat2.mulM, mat2.fromCols, mat2.vmul2] <;> ring

theorem mat2.mulM_identity (A : Mat2) : mat2.mulM A mat2.identity = A := by
  ext <;> simp only [mat2.mulM, mat2.identity, mat2.new, mat2.fromCols, mat2.vmul2] <;> ring

theorem mat2.identity_mulM (A : Mat2) : mat2.mulM mat2.identity A = A := by
  ext <;> simp only [mat2.mulM, mat2.identity, mat2.new, mat2.fromCols, mat2.vmul2] <;> ring

theorem mat2.mulM_invVal (M : Mat2) (hd : mat2.det M ≠ 0) :
    mat2.mulM M (mat2.invVal M) = mat2.identity := by
  obtain ⟨⟨a, b⟩, ⟨c, d⟩⟩ := M
  simp only [mat2.det] at hd
  ext <;>
    simp only [mat2.mulM, mat2.invVal, mat2.det, mat2.identity, mat2.new,
      mat2.fromCols, mat2.vmul2, recip] <;>
    field_simp <;>
    ring

theorem mat2.invVal_mulM (M : Mat2) (hd : mat2.det M ≠ 0) :
    mat2.mulM (mat2.invVal M) M = mat2.identity := by
  obtain ⟨⟨a, b⟩, ⟨c, d⟩⟩ := M
  simp only [mat2.det] at hd
  ext <;>
    simp only [mat2.mulM, mat2.invVal, mat2.det, mat2.identity, mat2.new,
      mat2.fromCols, mat2.vmul2, recip] <;>
    field_simp <;>
    ring

theorem mat2.det2_invVal_mul (M : Mat2) (hd : mat2.det M ≠ 0) :
    mat2.det (mat2.invVal M) * mat2.det M = 1 := by
  obtain ⟨⟨a, b⟩, ⟨c, d⟩⟩ := M
  simp only [mat2.det] at hd
  simp only [mat2.invVal, mat2.det, mat2.fromCols, recip]
  have hi : 1 / (a * d - b * c) * (a * d - b * c) = 1 := one_div_mul_cancel hd
  linear_combination (1 / (a * d - b * c) * (a * d - b * c) + 1) * hi

theorem mat2.det2_invVal_ne_zero (M : Mat2) (hd : mat2.det M ≠ 0) :
    mat2.det (mat2.invVal M) ≠ 0 :=
  left_ne_zero_of_mul_eq_one (mat2.det2_invVal_mul M hd)

theorem mat2.inv2Val_invVal (M : Mat2) (hd : mat2.det M ≠ 0) :
    mat2.invVal (mat2.invVal M) = M := by
  have h1 : mat2.mulM (mat2.invVal M) (mat2.invVal (mat2.invVal M)) = mat2.identity :=
    mat2.mulM_invVal _ (mat2.det2_invVal_ne_zero M hd)
  calc mat2.invVal (mat2.invVal M)
      = mat2.mulM mat2.identity (mat2.invVal (mat2.invVal M)) :=
        (mat2.identity_mulM _).symm
    _ = mat2.mulM (mat2.mulM M (mat2.invVal M)) (mat2.invVal (mat2.invVal M)) := by
        rw [mat2.mulM_invVal M hd]
    _ = mat2.mulM M (mat2.mulM (mat2.invVal M) (mat2.invVal (mat2.invVal M))) :=
        mat2.mulM_assoc _ _ _
    _ = mat2.mulM M mat2.identity := by rw [h1]
    _ = M := mat2.mulM_identity M

theorem mat3.mul_assoc (A B C : Mat3) :
    mat3.mul (mat3.mul A B) C = mat3.mul A (mat3.mul B C) := by
  ext <;> simp only [mat3.mul, mat3.vmul3, mat3.fromCols, vec3.add, vec3.scale] <;> ring

theorem mat3.mul_identity (A : Mat3) : mat3.mul A mat3.identity = A := by
  ext <;>
    simp only [mat3.mul, mat3.identity, mat3.new, mat3.vmul3, mat3.fromCols,
      vec3.add, vec3.scale] <;>
    ring

theorem mat3.identity_mul (A : Mat3) : mat3.mul mat3.identity A = A := by
  ext <;>
    simp only [mat3.mul, mat3.identity, mat3.new, mat3.vmul3, mat3.fromCols,
      vec3.add, vec3.scale] <;>
    ring

theorem mat3.mul_invVal (M : Mat3) (hd : mat3.det M ≠ 0) :
    mat3.mul M (mat3.invVal M) = mat3.identity := by
  obtain ⟨⟨a, b, c⟩, ⟨d, e, f⟩, ⟨g, i, j⟩⟩ := M
  simp only [mat3.det, vec3.dot, vec3.cross] at hd
  ext <;>
    simp only [mat3.mul, mat3.invVal, mat3.transposeVal, mat3.adjCols, mat3.fromCols,
      mat3.det, mat3.identity, mat3.new, mat3.vmul3, vec3.add, vec3.scale, vec3.mul,
      vec3.dot, vec3.cross, recip] <;>
    field_simp <;>
    ring

theorem mat3.invVal_mul (M : Mat3) (hd : mat3.det M ≠ 0) :
    mat3.mul (mat3.invVal M) M = mat3.identity := by
  obtain ⟨⟨a, b, c⟩, ⟨d, e, f⟩, ⟨g, i, j⟩⟩ := M
  simp only [mat3.det, vec3.dot, vec3.cross] at hd
  ext <;>
    simp only [mat3.mul, mat3.invVal, mat3.transposeVal, mat3.adjCols, mat3.fromCols,
      mat3.det, mat3.identity, mat3.new, mat3.vmul3, vec3.add, vec3.scale, vec3.mul,
      vec3.dot, vec3.cross, recip] <;>
    field_simp <;>
    ring

theorem mat3.det_invVal_mul (M : Mat3) (hd : mat3.det M ≠ 0) :
    mat3.det (mat3.invVal M) * mat3.det M = 1 := by
  obtain ⟨⟨a, b, c⟩, ⟨d, e, f⟩, ⟨g, i, j⟩⟩ := M
  simp only [mat3.det, vec3.dot, vec3.cross] at hd
  simp only [mat3.invVal, mat3.transposeVal, mat3.adjCols, mat3.fromCols, mat3.det,
    vec3.dot, vec3.cross, vec3.mul, recip]
  have hi1 : 1 / (g * (b * f - c * e) + i * (c * d - a * f) + j * (a * e - b * d)) *
      (g * (b * f - c * e) + i * (c * d - a * f) + j * (a * e - b * d)) = 1 :=
    one_div_mul_cancel hd
  linear_combination
    ((1 / (g * (b * f - c * e) + i * (c * d - a * f) + j * (a * e - b * d)) *
        (g * (b * f - c * e) + i * (c * d - a * f) + j * (a * e - b * d))) ^ 2 +
      1 / (g * (b * f - c * e) + i * (c * d - a * f) + j * (a * e - b * d)) *
        (g * (b * f - c * e) + i * (c * d - a * f) + j * (a * e - b * d)) + 1) * hi1

theorem mat3.det_invVal_ne_zero (M : Mat3) (hd : mat3.det M ≠ 0) :
    mat3.det (mat3.invVal M) ≠ 0 :=
  left_ne_zero_of_mul_eq_one (mat3.det_invVal_mul M hd)

theorem mat3.invVal_invVal (M : Mat3) (hd : mat3.det M ≠ 0) :
    mat3.invVal (mat3.invVal M) = M := by
  have h1 : mat3.mul (mat3.invVal M) (mat3.invVal (mat3.invVal M)) = mat3.identity :=
    mat3.mul_invVal _ (mat3.det_invVal_ne_zero M hd)
  calc mat3.invVal (mat3.invVal M)
      = mat3.mul mat3.identity (mat3.invVal (mat3.invVal M)) :=
        (mat3.identity_mul _).symm
    _ = mat3.mul (mat3.mul M (mat3.invVal M)) (mat3.invVal (mat3.invVal M)) := by
        rw [mat3.mul_invVal M hd]
    _ = mat3.mul M (mat3.mul (mat3.invVal M) (mat3.invVal (mat3.invVal M))) :=
        mat3.mul_assoc _ _ _
    _ = mat3.mul M mat3.identity := by rw [h1]
    _ = M := mat3.mul_identity M

/-! ## Claim theorems -/

/-- C9: quat.fromEuler with order XZY is independent of the x component of its
input: the XZY branch reads `rot.y` for both the Z-axis and X-axis factors and
never reads `rot.x`, so for all x, x', y, z the results coincide. -/
theorem C9_fromEuler_XZY_independent_of_x (x x' y z : ℝ) :
    quat.fromEuler ⟨x, y, z⟩ EulerRot.XZY = quat.fromEuler ⟨x', y, z⟩ EulerRot.XZY := rfl

/-- C10: the 4-dimensional named direction constants lie on different axes than
the 2D/3D ones: `vec4.up = (1,0,0,0)` and `vec4.down = (-1,0,0,0)` are on the
x-axis and `vec4.left = (0,-1,0,0)`, `vec4.right = (0,1,0,0)` on the y-axis,
while `vec3.up = (0,1,0)` and `vec3.right = (1,0,0)`. -/
theorem C10_vec4_direction_constants :
    vec4.up = (⟨1, 0, 0, 0⟩ : Num4) ∧ vec4.down = (⟨-1, 0, 0, 0⟩ : Num4) ∧
    vec4.left = (⟨0, -1, 0, 0⟩ : Num4) ∧ vec4.right = (⟨0, 1, 0, 0⟩ : Num4) ∧
    vec3.up = (⟨0, 1, 0⟩ : Vec3) ∧ vec3.right = (⟨1, 0, 0⟩ : Vec3) :=
  ⟨rfl, rfl, rfl, rfl, rfl, rfl⟩

/-- C6: for every quaternion q, `quat.mul(q, quat.conj(q))` equals
`(0, 0, 0, len2(q))` exactly, and hence equals the identity quaternion
`(0,0,0,1)` whenever q has unit length. -/
theorem C6_mul_conj_eq_len2 (q : Num4) :
    quat.mul q (quat.conj q) = (⟨0, 0, 0, quat.len2 q⟩ : Num4) ∧
    (quat.len2 q = 1 → quat.mul q (quat.conj q) = quat.identity) := by
  have h1 : quat.mul q (quat.conj q) = (⟨0, 0, 0, quat.len2 q⟩ : Num4) := by
    simp only [quat.mul, quat.conj, quat.len2, vec4.len2, Num4.mk.injEq]
    refine ⟨by ring, by ring, by ring, by ring⟩
  refine ⟨h1, fun hu => ?_⟩
  rw [h1, hu]; rfl

/-- Witness for C6: at the concrete unit quaternion `(0,0,0,1)` the hypothesis
`len2 q = 1` holds and the product with the conjugate is the identity. -/
theorem C6_mul_conj_eq_len2_witness :
    quat.len2 (⟨0, 0, 0, 1⟩ : Num4) = 1 ∧
    quat.mul ⟨0, 0, 0, 1⟩ (quat.conj ⟨0, 0, 0, 1⟩) = quat.identity := by
  have hu : quat.len2 (⟨0, 0, 0, 1⟩ : Num4) = 1 := by
    simp [quat.len2, vec4.len2]
  exact ⟨hu, (C6_mul_conj_eq_len2 ⟨0, 0, 0, 1⟩).2 hu⟩

/-- C1 (code bug): the Euler round trip cannot recover the x angle for order
XZY, because `fromEuler`'s XZY branch never reads `rot.x`: at the failing
input `e = (1, 0.1, 0.2)` the built quaternion — and therefore the whole
round trip — is identical to the one for `e' = (-1, 0.1, 0.2)`, although the
two x angles are not equivalent modulo angle wrapping. -/
theorem C1_fromEuler_XZY_roundtrip_fails :
    quat.fromEuler ⟨1, 1/10, 1/5⟩ EulerRot.XZY =
      quat.fromEuler ⟨-1, 1/10, 1/5⟩ EulerRot.XZY ∧
    quat.toEuler (quat.fromEuler ⟨1, 1/10, 1/5⟩ EulerRot.XZY) EulerRot.XZY =
      quat.toEuler (quat.fromEuler ⟨-1, 1/10, 1/5⟩ EulerRot.XZY) EulerRot.XZY :=
  ⟨rfl, rfl⟩

/-- C2 (code bug): `mat3.col(m, 2)` returns the SECOND column `c1` (mat3.ts
line 271 reads `self.c1` in the `case 2` branch), not the third column `c2`:
on the matrix with columns `(1,2,3), (4,5,6), (7,8,9)` it yields `(4,5,6)`
while the third column is `(7,8,9)`. -/
theorem C2_mat3_col_index_two_returns_c1 :
    mat3.col (mat3.new 1 2 3 4 5 6 7 8 9) 2 = some ⟨4, 5, 6⟩ ∧
    (mat3.new 1 2 3 4 5 6 7 8 9).c2 = ⟨7, 8, 9⟩ ∧
    (⟨4, 5, 6⟩ : Vec3) ≠ (⟨7, 8, 9⟩ : Vec3) ∧
    mat3.row (mat3.new 1 2 3 4 5 6 7 8 9) 3 = none := by
  refine ⟨by simp [mat3.col, mat3.new], rfl, fun h => ?_, by simp [mat3.row]⟩
  have hx := congrArg Vec3.x h
  norm_num at hx

/-- C3: mat2.inv and mat3.inv fail (assertion, embedded as `none`) exactly when
the determinant is zero under an exact comparison — in particular on
`mat2(1,3,2,6)` — and for every matrix with nonzero determinant they return an
inverse whose own inverse is the original matrix (exactly, hence also up to
epsilon comparison). -/
theorem C3_inv_exact_singularity_check :
    (∀ M : Mat2, mat2.inv M = none ↔ mat2.det M = 0) ∧
    mat2.inv (mat2.new 1 3 2 6) = none ∧
    (∀ M : Mat2, mat2.det M ≠ 0 → (mat2.inv M).bind mat2.inv = some M) ∧
    (∀ M : Mat3, mat3.inv M = none ↔ mat3.det M = 0) ∧
    (∀ M : Mat3, mat3.det M ≠ 0 → (mat3.inv M).bind mat3.inv = some M) := by
  have h2iff : ∀ M : Mat2, mat2.inv M = none ↔ mat2.det M = 0 := by
    intro M
    unfold mat2.inv
    by_cases h : mat2.det M = 0
    · simp [h]
    · simp [h]
  have h3iff : ∀ M : Mat3, mat3.inv M = none ↔ mat3.det M = 0 := by
    intro M
    unfold mat3.inv
    by_cases h : mat3.det M = 0
    · simp [h]
    · simp [h]
  refine ⟨h2iff, ?_, ?_, h3iff, ?_⟩
  · exact (h2iff _).mpr (by norm_num [mat2.det, mat2.new])
  · intro M h
    have hs : mat2.inv M = some (mat2.invVal M) := by
      unfold mat2.inv
      rw [if_neg h]
    rw [hs]
    show mat2.inv (mat2.invVal M) = some M
    unfold mat2.inv
    rw [if_neg (mat2.det2_invVal_ne_zero M h), mat2.inv2Val_invVal M h]
  · intro M h
    have hs : mat3.inv M = some (mat3.invVal M) := by
      unfold mat3.inv
      rw [if_neg h]
    rw [hs]
    show mat3.inv (mat3.invVal M) = some M
    unfold mat3.inv
    rw [if_neg (mat3.det_invVal_ne_zero M h), mat3.invVal_invVal M h]

/-- Witness for C3: concrete nonsingular matrices round trip through `inv`. -/
theorem C3_inv_exact_singularity_check_witness :
    mat2.det (mat2.new 1 2 3 4) ≠ 0 ∧ mat3.det mat3.identity ≠ 0 ∧
    (mat2.inv (mat2.new 1 2 3 4)).bind mat2.inv = some (mat2.new 1 2 3 4) ∧
    (mat3.inv mat3.identity).bind mat3.inv = some mat3.identity := by
  have h2 : mat2.det (mat2.new 1 2 3 4) ≠ 0 := by
    norm_num [mat2.det, mat2.new]
  have h3 : mat3.det mat3.identity ≠ 0 := by
    norm_num [mat3.det, mat3.identity, mat3.new, vec3.dot, vec3.cross]
  exact ⟨h2, h3, C3_inv_exact_singularity_check.2.2.1 _ h2,
    C3_inv_exact_singularity_check.2.2.2.2 _ h3⟩

/-- Concrete heap for settling C4: mat3 object 0 holds the nonsingular test
matrix with columns `(1,0,0), (1,1,0), (0,0,1)`, object 1 is the
caller-supplied `out` (a zero matrix, and the zero 2d vector in the vec2
store), and allocation continues at reference 2. -/
def C4heap : Heap :=
  ⟨2, fun r => if r = 0 then mat3.new 1 0 0 1 1 0 0 0 1 else mat3.new 0 0 0 0 0 0 0 0 0,
   fun _ => ⟨0, 0⟩⟩

/-- C4 (code bug): `mat3.inv(m, out)` does NOT return the caller-supplied out
object: the final `mat3.transpose(...)` call (mat3.ts line 292) omits `out`,
so a fresh matrix (reference 2) is allocated and returned while `out`
(reference 1) is left holding the un-transposed scaled cofactor columns, the
TRANSPOSE of the inverse; and `mat3.transformPoint2(m, v, out)` never touches
`out` at all, returning a freshly allocated vector. -/
theorem C4_inv_and_transformPoint2_return_fresh_objects :
    (∃ r h', mat3.invRef 0 1 C4heap = some (r, h') ∧ r ≠ 1 ∧
      h'.m3 r = mat3.invVal (mat3.new 1 0 0 1 1 0 0 0 1) ∧
      h'.m3 1 = mat3.adjCols (mat3.new 1 0 0 1 1 0 0 0 1) ∧
      h'.m3 1 ≠ mat3.invVal (mat3.new 1 0 0 1 1 0 0 0 1)) ∧
    (∃ r h', mat3.transformPoint2Ref 0 ⟨5, 7⟩ 1 C4heap = (r, h') ∧ r ≠ 1 ∧
      h'.v2 1 = C4heap.v2 1) := by
  have hd : ¬ mat3.det (mat3.new 1 0 0 1 1 0 0 0 1) = 0 := by
    norm_num [mat3.det, mat3.new, vec3.dot, vec3.cross]
  have hne : mat3.adjCols (mat3.new 1 0 0 1 1 0 0 0 1) ≠
      mat3.invVal (mat3.new 1 0 0 1 1 0 0 0 1) := by
    intro hEq
    have hc := congrArg (fun m => m.c0.y) hEq
    simp only [mat3.adjCols, mat3.invVal, mat3.transposeVal, mat3.fromCols, vec3.mul,
      vec3.cross, vec3.dot, mat3.det, mat3.new, recip] at hc
    norm_num at hc
  constructor
  · have hrun : mat3.invRef 0 1 C4heap = some (2,
        ⟨3, Function.update (Function.update (Function.update C4heap.m3 1
              (mat3.adjCols (mat3.new 1 0 0 1 1 0 0 0 1))) 2
              (mat3.new 0 0 0 0 0 0 0 0 0)) 2
              (mat3.invVal (mat3.new 1 0 0 1 1 0 0 0 1)),
          C4heap.v2⟩) := by
      unfold mat3.invRef
      rw [show C4heap.m3 0 = mat3.new 1 0 0 1 1 0 0 0 1 from rfl, if_neg hd]
      rfl
    refine ⟨2, _, hrun, by norm_num, rfl, rfl, hne⟩
  · exact ⟨4, _, rfl, by norm_num, rfl⟩

/-- C5: degenerate inputs are recovered with fixed sentinel values:
`vec3.normalizeSafe` of the zero vector returns the zero vector,
`quat.fromScaledAxis` of the exactly-zero vector takes the explicit branch to
the identity quaternion, and `quat.toAxisAngle` returns fallback axis
`(1,0,0)` with angle `2*acos(w)` whenever `1 - w*w` is below `epsilon2`. -/
theorem C5_degenerate_sentinels :
    vec3.normalizeSafe ⟨0, 0, 0⟩ = (⟨0, 0, 0⟩ : Vec3) ∧
    quat.fromScaledAxis ⟨0, 0, 0⟩ = quat.identity ∧
    (∀ q : Num4, 1 - q.w * q.w < epsilon2 →
      quat.toAxisAngle q = (⟨1, 0, 0⟩, 2 * Real.arccos q.w)) := by
  refine ⟨?_, ?_, ?_⟩
  · unfold vec3.normalizeSafe
    norm_num [vec3.rlen, rsqrt, recip, vec3.len2, Real.sqrt_zero]
  · unfold quat.fromScaledAxis
    norm_num [vec3.len, vec3.len2, Real.sqrt_zero]
  · intro q h
    unfold quat.toAxisAngle
    have hc : max (1 - q.w * q.w) 0 < epsilon2 := by
      rw [max_lt_iff]
      exact ⟨h, by norm_num [epsilon2, epsilon]⟩
    rw [if_pos hc]

/-- Witness for C5: the identity quaternion has `1 - w*w = 0 < epsilon2` and
hits the fallback branch of `toAxisAngle`. -/
theorem C5_degenerate_sentinels_witness :
    1 - quat.identity.w * quat.identity.w < epsilon2 ∧
    quat.toAxisAngle quat.identity = (⟨1, 0, 0⟩, 2 * Real.arccos quat.identity.w) := by
  have h : 1 - quat.identity.w * quat.identity.w < epsilon2 := by
    norm_num [quat.identity, epsilon2, epsilon]
  exact ⟨h, C5_degenerate_sentinels.2.2 quat.identity h⟩

/-- C7: `quat.angle` fails (fatal assertion, embedded as `none`) whenever one
operand is not normalized; on unit-length operands the assertion passes and
the result is `2 * acos(|dot(lhs, rhs)|)`, so `angle(q, q) = 0` for unit q. -/
theorem C7_angle_requires_normalized :
    (∀ lhs rhs : Num4, ¬(quat.isNormalized lhs ∧ quat.isNormalized rhs) →
      quat.angle lhs rhs = none) ∧
    (∀ lhs rhs : Num4, quat.len2 lhs = 1 → quat.len2 rhs = 1 →
      quat.angle lhs rhs = some (2 * Real.arccos |quat.dot lhs rhs|)) ∧
    (∀ q : Num4, quat.len2 q = 1 → quat.angle q q = some 0) := by
  have hnorm : ∀ q : Num4, quat.len2 q = 1 → quat.isNormalized q := by
    intro q h
    unfold quat.isNormalized vec4.isNormalized
    rw [show vec4.len2 q = quat.len2 q from rfl, h]
    norm_num [epsilon]
  refine ⟨?_, ?_, ?_⟩
  · intro lhs rhs h
    unfold quat.angle
    rw [if_neg h]
  · intro lhs rhs h1 h2
    unfold quat.angle
    rw [if_pos ⟨hnorm _ h1, hnorm _ h2⟩, mul_comm]
  · intro q h
    unfold quat.angle
    rw [if_pos ⟨hnorm _ h, hnorm _ h⟩]
    have hd : quat.dot q q = 1 := by
      have hdl : quat.dot q q = quat.len2 q := by
        simp [quat.dot, vec4.dot, quat.len2, vec4.len2]
      rw [hdl, h]
    rw [hd]
    norm_num [Real.arccos_one]

/-- Witness for C7: the identity quaternion is unit length and
`angle(identity, identity) = 0`, while `(0,0,0,2)` trips the assertion. -/
theorem C7_angle_requires_normalized_witness :
    quat.len2 quat.identity = 1 ∧
    quat.angle quat.identity quat.identity = some 0 ∧
    quat.angle ⟨0, 0, 0, 2⟩ ⟨0, 0, 0, 2⟩ = none := by
  have h1 : quat.len2 quat.identity = 1 := by
    norm_num [quat.identity, quat.len2, vec4.len2]
  have h2 : ¬ quat.isNormalized (⟨0, 0, 0, 2⟩ : Num4) := by
    unfold quat.isNormalized vec4.isNormalized vec4.len2
    norm_num [epsilon]
  exact ⟨h1, C7_angle_requires_normalized.2.2 _ h1,
    C7_angle_requires_normalized.1 _ _ (fun hc => h2 hc.1)⟩

/-- C8: the quaternion built by `fromRotationY(30 degrees)` equals the one
built by `fromEuler((30 degrees, 0, 0), YXZ)` (exactly, in real arithmetic),
and `toAxisAngle` recovers the up axis `(0,1,0)` together with the angle
30 degrees in radians. -/
theorem C8_fromRotationY_30_degrees :
    quat.fromRotationY (deg 30) = quat.fromEuler ⟨deg 30, 0, 0⟩ EulerRot.YXZ ∧
    quat.toAxisAngle (quat.fromRotationY (deg 30)) = (vec3.up, deg 30) := by
  have hdeg : deg 30 = Real.pi / 6 := by
    unfold deg
    ring
  have hhalf : Real.pi / 6 / 2 = Real.pi / 12 := by ring
  have hmulid : ∀ q : Num4, quat.mul q quat.identity = q := by
    intro q
    ext <;> simp [quat.mul, quat.identity]
  have hidmul : ∀ q : Num4, quat.mul quat.identity q = q := by
    intro q
    ext <;> simp [quat.mul, quat.identity]
  have hx0 : quat.fromRotationX 0 = quat.identity := by
    simp [quat.fromRotationX, quat.identity, zero_div]
  have hz0 : quat.fromRotationZ 0 = quat.identity := by
    simp [quat.fromRotationZ, quat.identity, zero_div]
  constructor
  · show quat.fromRotationY (deg 30) =
      quat.mul (quat.fromRotationZ (0 : ℝ))
        (quat.mul (quat.fromRotationY (deg 30)) (quat.fromRotationX (0 : ℝ)))
    rw [hx0, hz0, hmulid, hidmul]
  · rw [hdeg]
    have hsinpos : 0 < Real.sin (Real.pi / 12) := by
      apply Real.sin_pos_of_pos_of_lt_pi
      · positivity
      · nlinarith [Real.pi_pos]
    have hsq : Real.pi ^ 2 ≤ 16 := by
      nlinarith [Real.pi_le_four, Real.pi_pos]
    have hcube : Real.pi ^ 3 ≤ 64 := by
      nlinarith [Real.pi_le_four, Real.pi_pos, hsq]
    have hb := Real.sin_gt_sub_cube (x := Real.pi / 12) (by positivity)
      (by nlinarith [Real.pi_le_four])
    have hsin15 : 1 / 5 < Real.sin (Real.pi / 12) := by
      nlinarith [Real.pi_gt_three, hcube]
    have h1 : 1 - Real.cos (Real.pi / 12) * Real.cos (Real.pi / 12) =
        Real.sin (Real.pi / 12) ^ 2 := by
      have hpy := Real.sin_sq_add_cos_sq (Real.pi / 12)
      nlinarith [hpy]
    unfold quat.toAxisAngle quat.fromRotationY
    rw [hhalf, h1, max_eq_left (sq_nonneg _)]
    have heps : epsilon2 = 1 / 10 ^ 16 := by
      norm_num [epsilon2, epsilon]
    rw [if_neg (not_lt.mpr (by
      rw [heps]
      nlinarith [hsin15] : epsilon2 ≤ Real.sin (Real.pi / 12) ^ 2))]
    rw [Real.sqrt_sq hsinpos.le]
    have harc : 2 * Real.arccos (Real.cos (Real.pi / 12)) = Real.pi / 6 := by
      rw [Real.arccos_cos (by positivity) (by nlinarith [Real.pi_pos])]
      ring
    rw [harc, zero_div, div_self hsinpos.ne']
    rfl

end Olam
